import Mathlib

/-!
Verification development for the `TrajectoryValidation` Solidity contract
(src/smartContract.sol) and the coordinate scaling helpers of
src/src/utils/contract.ts.

The contract is embedded shallowly:
* `uint256` values become `Nat`; `int256` values become `Int`, with the
  checked arithmetic of Solidity 0.8 modelled by `checkInt256` (an
  operation whose mathematical result leaves the `int256` range reverts,
  i.e. returns `none`).
* storage (`validatedTrajectories`) becomes an explicit `List Trajectory`
  threaded through the operations; a reverting call returns `Except.error`
  and leaves no state change.
* the `while` loop of `sqrt` becomes fuel-indexed structural recursion;
  the fuel `x` is sufficient because the iterate `y` strictly decreases
  on every pass (proved below: the function computes `Nat.sqrt`).
-/

namespace TrajectoryValidation

/-- `uint public constant COLLISION_DISTANCE = 7`. -/
def COLLISION_DISTANCE : Nat := 7

/-- `uint public constant TIME_SLOT = 1` (seconds per slot). -/
def TIME_SLOT : Nat := 1

/-- `struct Coordinate { int latitude; int longitude; }` -/
structure Coordinate where
  latitude : Int
  longitude : Int
deriving DecidableEq

/-- `struct Trajectory { uint carId; uint startSlot; uint endSlot; Coordinate[] path; }` -/
structure Trajectory where
  carId : Nat
  startSlot : Nat
  endSlot : Nat
  path : List Coordinate
deriving DecidableEq

/-- `event TrajectorySubmitted(uint indexed carId, bool accepted, uint startSlot, uint endSlot)` -/
structure SubmissionEvent where
  carId : Nat
  accepted : Bool
  startSlot : Nat
  endSlot : Nat
deriving DecidableEq

/-- Smallest `int256` value, `-2^255`. -/
def INT256_MIN : Int := -(2 ^ 255)

/-- Largest `int256` value, `2^255 - 1`. -/
def INT256_MAX : Int := 2 ^ 255 - 1

/-- Solidity 0.8 checked arithmetic: a signed operation whose mathematical
result leaves the `int256` range reverts.  `checkInt256 x = some x` when
`x` fits in `int256`, `none` (revert) otherwise. -/
def checkInt256 (x : Int) : Option Int :=
  if INT256_MIN ≤ x ∧ x ≤ INT256_MAX then some x else none

/-- The Solidity cast `uint(x)` of an `int256` value: two's-complement
reinterpretation, i.e. `x mod 2^256`. -/
def toUint256 (x : Int) : Nat := (x % (2 ^ 256 : Int)).toNat

/-- The `while (z < y) { y = z; z = (x / z + z) / 2; }` loop of `sqrt`,
as fuel-indexed structural recursion.  One unit of fuel is spent per
iteration; since each iteration replaces `y` by the strictly smaller `z`,
an initial fuel of `y` can never run out. -/
def sqrtAux (x : Nat) : Nat → Nat → Nat → Nat
  | 0, _, y => y
  | fuel + 1, z, y => if z < y then sqrtAux x fuel ((x / z + z) / 2) z else y

/-- `function sqrt(uint x) internal pure returns (uint y)`:
Newton iteration, `z = (x + 1) / 2; y = x; while (z < y) { y = z; z = (x / z + z) / 2; }`. -/
def sqrt (x : Nat) : Nat :=
  if x = 0 then 0 else sqrtAux x x ((x + 1) / 2) x

/-- `function distance(Coordinate a, Coordinate b) internal pure returns (uint)`:
`int dx = a.latitude - b.latitude; int dy = a.longitude - b.longitude;
return sqrt(uint(dx * dx + dy * dy));` with every signed operation
checked (Solidity 0.8 reverts on overflow). -/
def distance (a b : Coordinate) : Option Nat :=
  (checkInt256 (a.latitude - b.latitude)).bind fun dx =>
  (checkInt256 (a.longitude - b.longitude)).bind fun dy =>
  (checkInt256 (dx * dx)).bind fun sx =>
  (checkInt256 (dy * dy)).bind fun sy =>
  (checkInt256 (sx + sy)).bind fun s =>
  some (sqrt (toUint256 s))

/-- The points visited by a loop `for (i = 0; i < path.length; i += 2)`:
indices 0, 2, 4, … of the path. -/
def sampledPoints : List Coordinate → List Coordinate
  | [] => []
  | [a] => [a]
  | a :: _ :: rest => a :: sampledPoints rest

/-- Short-circuiting existential over a list in the `Option` monad:
`none` (a revert inside the body) aborts the whole scan, the first
`some true` stops the scan, and `some false` moves on — exactly the
control flow of a Solidity loop whose body may `return true` or revert. -/
def anyOpt {α : Type} (f : α → Option Bool) : List α → Option Bool
  | [] => some false
  | a :: as =>
    match f a with
    | none => none
    | some true => some true
    | some false => anyOpt f as

/-- The sampled spatial check of `isCollision`: the two nested loops
`for (m = 0; m < newPath.length; m += 2) for (n = 0; n < existing.path.length; n += 2)
  if (distance(newPath[m], existing.path[n]) <= COLLISION_DISTANCE) return true;`. -/
def pathsCollide (newPath exPath : List Coordinate) : Option Bool :=
  anyOpt (fun pm =>
    anyOpt (fun pn =>
      (distance pm pn).bind fun d => some (decide (d ≤ COLLISION_DISTANCE)))
      (sampledPoints exPath))
    (sampledPoints newPath)

/-- `function isCollision(uint newStart, uint newEnd, Coordinate[] newPath)`:
scan the stored trajectories in order; for each, if the half-open time
intervals overlap (`newStart < existing.endSlot && existing.startSlot < newEnd`)
run the sampled spatial check; return `true` on the first collision found. -/
def isCollision (newStart newEnd : Nat) (newPath : List Coordinate)
    (ledger : List Trajectory) : Option Bool :=
  anyOpt (fun existing =>
    if newStart < existing.endSlot ∧ existing.startSlot < newEnd then
      pathsCollide newPath existing.path
    else some false) ledger

/-- The ways `submitTrajectory` can revert: the two `require` statements,
and checked-arithmetic overflow inside `distance`. -/
inductive SubmitError where
  | emptyPath
  | invalidWindow
  | overflow
deriving DecidableEq

/-- Result of a non-reverting `submitTrajectory` call: the returned `bool`,
the storage after the call, and the events emitted by the call. -/
structure SubmitResult where
  accepted : Bool
  ledger : List Trajectory
  events : List SubmissionEvent
deriving DecidableEq

/-- `function submitTrajectory(uint carId, uint startTime, uint endTime, Coordinate[] path)`:
`require(path.length > 0)`; `startSlot = startTime / TIME_SLOT`;
`endSlot = endTime / TIME_SLOT`; `require(endSlot > startSlot)`;
on collision emit a rejecting event and return `false`; otherwise push a
trajectory holding `carId`, the slots and a copy of `path`, emit an
accepting event and return `true`. -/
def submitTrajectory (carId startTime endTime : Nat) (path : List Coordinate)
    (ledger : List Trajectory) : Except SubmitError SubmitResult :=
  if path.length > 0 then
    if endTime / TIME_SLOT > startTime / TIME_SLOT then
      match isCollision (startTime / TIME_SLOT) (endTime / TIME_SLOT) path ledger with
      | none => .error .overflow
      | some true =>
        .ok ⟨false, ledger,
             [⟨carId, false, startTime / TIME_SLOT, endTime / TIME_SLOT⟩]⟩
      | some false =>
        .ok ⟨true, ledger ++ [⟨carId, startTime / TIME_SLOT, endTime / TIME_SLOT, path⟩],
             [⟨carId, true, startTime / TIME_SLOT, endTime / TIME_SLOT⟩]⟩
    else .error .invalidWindow
  else .error .emptyPath

/-- `function getTrajectoryCount()`: `validatedTrajectories.length`. -/
def getTrajectoryCount (ledger : List Trajectory) : Nat := ledger.length

/-- The ways the view helpers can revert. -/
inductive ViewError where
  | indexOutOfBounds
  | invalidTrajectory
  | invalidCoordinate
deriving DecidableEq

/-- `function getTrajectoryMeta(uint index)`:
`require(index < validatedTrajectories.length)`, then return
`(carId, startSlot, endSlot, path.length)` of the stored trajectory. -/
def getTrajectoryMeta (ledger : List Trajectory) (index : Nat) :
    Except ViewError (Nat × Nat × Nat × Nat) :=
  if h : index < ledger.length then
    .ok ((ledger.get ⟨index, h⟩).carId, (ledger.get ⟨index, h⟩).startSlot,
      (ledger.get ⟨index, h⟩).endSlot, (ledger.get ⟨index, h⟩).path.length)
  else .error .indexOutOfBounds

/-- `function getTrajectoryCoordinate(uint trajIndex, uint coordIndex)`:
`require(trajIndex < validatedTrajectories.length)` (else "Invalid trajectory"),
`require(coordIndex < t.path.length)` (else "Invalid coordinate"), then
return the stored latitude and longitude. -/
def getTrajectoryCoordinate (ledger : List Trajectory) (trajIndex coordIndex : Nat) :
    Except ViewError (Int × Int) :=
  if h : trajIndex < ledger.length then
    if h2 : coordIndex < (ledger.get ⟨trajIndex, h⟩).path.length then
      .ok (((ledger.get ⟨trajIndex, h⟩).path.get ⟨coordIndex, h2⟩).latitude,
        ((ledger.get ⟨trajIndex, h⟩).path.get ⟨coordIndex, h2⟩).longitude)
    else .error .invalidCoordinate
  else .error .invalidTrajectory

/-- One external `submitTrajectory` call, as data. -/
structure Request where
  carId : Nat
  startTime : Nat
  endTime : Nat
  path : List Coordinate
deriving DecidableEq

/-- The storage after one external call: a reverting call (error) rolls
back and leaves storage unchanged; a non-reverting call leaves the storage
the call produced. -/
def applyRequest (ledger : List Trajectory) (r : Request) : List Trajectory :=
  match submitTrajectory r.carId r.startTime r.endTime r.path ledger with
  | .ok res => res.ledger
  | .error _ => ledger

/-- The storage after a sequence of external calls. -/
def runRequests (ledger : List Trajectory) : List Request → List Trajectory
  | [] => ledger
  | r :: rs => runRequests (applyRequest ledger r) rs

/-- Whether one external call is an accepted submission. -/
def acceptedOne (ledger : List Trajectory) (r : Request) : Bool :=
  match submitTrajectory r.carId r.startTime r.endTime r.path ledger with
  | .ok res => res.accepted
  | .error _ => false

/-- Number of accepted submissions along a sequence of external calls. -/
def acceptedCount (ledger : List Trajectory) : List Request → Nat
  | [] => 0
  | r :: rs =>
    (if acceptedOne ledger r then 1 else 0) + acceptedCount (applyRequest ledger r) rs

/-- Every stored trajectory has a strictly increasing slot window and a
non-empty path. -/
def WellFormed (ledger : List Trajectory) : Prop :=
  ∀ t ∈ ledger, t.startSlot < t.endSlot ∧ t.path ≠ []

/-! ### Correctness of the Newton integer square root -/

/-- One Newton step from a positive iterate stays at or above `Nat.sqrt x`. -/
theorem nat_sqrt_le_newton (x z : Nat) (hz : 0 < z) :
    Nat.sqrt x ≤ (x / z + z) / 2 := by
  rcases le_or_lt (2 * Nat.sqrt x) z with h | h
  · have h2 : Nat.sqrt x ≤ z / 2 := by omega
    exact h2.trans (Nat.div_le_div_right (Nat.le_add_left _ _))
  · have h1 : (2 * Nat.sqrt x - z) * z ≤ Nat.sqrt x * Nat.sqrt x := by
      have hc : ((2 * Nat.sqrt x - z : Nat) : Int) = 2 * (Nat.sqrt x : Int) - z := by
        have : z ≤ 2 * Nat.sqrt x := h.le
        push_cast [Nat.cast_sub this]
        ring
      have h2 : ((2 * Nat.sqrt x - z : Nat) : Int) * z ≤ (Nat.sqrt x : Int) * Nat.sqrt x := by
        rw [hc]
        nlinarith [sq_nonneg ((Nat.sqrt x : Int) - z)]
      exact_mod_cast h2
    have h2 : Nat.sqrt x * Nat.sqrt x ≤ x := Nat.sqrt_le x
    have h3 : 2 * Nat.sqrt x - z ≤ x / z := (Nat.le_div_iff_mul_le hz).mpr (h1.trans h2)
    omega

/-- The Newton loop returns `Nat.sqrt x` whenever the fuel dominates the
iterate `y` (the iterate strictly decreases, so fuel `y` is enough), the
iterates sit at or above `Nat.sqrt x`, and `y` is exact once `y ≤ z`. -/
theorem sqrtAux_eq_sqrt (x : Nat) (hx : 0 < x) :
    ∀ fuel z y, y ≤ fuel → 0 < z → Nat.sqrt x ≤ z → Nat.sqrt x ≤ y →
      (y ≤ z → y ≤ Nat.sqrt x) → sqrtAux x fuel z y = Nat.sqrt x
  | 0, z, y, hyf, hz, hsz, hsy, hyz => by
    have := Nat.sqrt_pos.mpr hx
    omega
  | fuel + 1, z, y, hyf, hz, hsz, hsy, hyz => by
    simp only [sqrtAux]
    split
    · next h =>
      have hs1 : 0 < Nat.sqrt x := Nat.sqrt_pos.mpr hx
      have hnew : Nat.sqrt x ≤ (x / z + z) / 2 := nat_sqrt_le_newton x z hz
      refine sqrtAux_eq_sqrt x hx fuel ((x / z + z) / 2) z (by omega) (by omega) hnew hsz ?_
      intro hzz
      have h4 : z * z ≤ x := by
        have h5 : z ≤ x / z := by omega
        exact (Nat.le_div_iff_mul_le hz).mp h5
      exact Nat.le_sqrt.mpr h4
    · next h =>
      have := hyz (by omega)
      omega

/-- The contract's `sqrt` computes the integer square root. -/
theorem sqrt_eq_nat_sqrt (x : Nat) : sqrt x = Nat.sqrt x := by
  unfold sqrt
  split
  · next h => subst h; rfl
  · next h =>
    have hx : 0 < x := Nat.pos_of_ne_zero h
    have h2 : Nat.sqrt x * Nat.sqrt x ≤ x := Nat.sqrt_le x
    have key : 2 * Nat.sqrt x ≤ Nat.sqrt x * Nat.sqrt x + 1 := by
      have h3 : (2 * (Nat.sqrt x : Int)) ≤ (Nat.sqrt x : Int) * Nat.sqrt x + 1 := by
        nlinarith [sq_nonneg ((Nat.sqrt x : Int) - 1)]
      exact_mod_cast h3
    refine sqrtAux_eq_sqrt x hx x ((x + 1) / 2) x le_rfl (by omega) (by omega)
      (Nat.sqrt_le_self x) ?_
    intro hxle
    have hx1 : x = 1 := by omega
    subst hx1
    decide

/-! ### Helper lemmas about `checkInt256`, `distance`, `anyOpt`, `sampledPoints` -/

theorem checkInt256_eq_some {x y : Int} :
    checkInt256 x = some y ↔ (INT256_MIN ≤ x ∧ x ≤ INT256_MAX) ∧ y = x := by
  unfold checkInt256
  split
  · next h => simp [h, eq_comm]
  · next h => simp [h]

set_option maxRecDepth 10000 in
/-- Unfolding a successful `distance` computation: the result is the
integer square root of `dx² + dy²`, and every intermediate value fits
in `int256`. -/
theorem distance_eq_some {a b : Coordinate} {d : Nat} (h : distance a b = some d) :
    d = Nat.sqrt (((a.latitude - b.latitude) * (a.latitude - b.latitude) +
      (a.longitude - b.longitude) * (a.longitude - b.longitude)).toNat) := by
  unfold distance at h
  rcases hdx : checkInt256 (a.latitude - b.latitude) with _ | dx
  · rw [hdx] at h; simp at h
  rw [hdx, Option.some_bind] at h
  rcases hdy : checkInt256 (a.longitude - b.longitude) with _ | dy
  · rw [hdy] at h; simp at h
  rw [hdy, Option.some_bind] at h
  rcases hsx : checkInt256 (dx * dx) with _ | sx
  · rw [hsx] at h; simp at h
  rw [hsx, Option.some_bind] at h
  rcases hsy : checkInt256 (dy * dy) with _ | sy
  · rw [hsy] at h; simp at h
  rw [hsy, Option.some_bind] at h
  rcases hs : checkInt256 (sx + sy) with _ | s
  · rw [hs] at h; simp at h
  rw [hs, Option.some_bind, Option.some.injEq] at h
  obtain ⟨hdxr, hdxe⟩ := checkInt256_eq_some.mp hdx
  obtain ⟨hdyr, hdye⟩ := checkInt256_eq_some.mp hdy
  obtain ⟨hsxr, hsxe⟩ := checkInt256_eq_some.mp hsx
  obtain ⟨hsyr, hsye⟩ := checkInt256_eq_some.mp hsy
  obtain ⟨hsr, hse⟩ := checkInt256_eq_some.mp hs
  subst hdxe hdye hsxe hsye hse
  have hnn : (0 : Int) ≤ (a.latitude - b.latitude) * (a.latitude - b.latitude) +
      (a.longitude - b.longitude) * (a.longitude - b.longitude) :=
    add_nonneg (mul_self_nonneg _) (mul_self_nonneg _)
  have hbig : (INT256_MAX : Int) < 2 ^ 256 := by decide
  have hlt : (a.latitude - b.latitude) * (a.latitude - b.latitude) +
      (a.longitude - b.longitude) * (a.longitude - b.longitude) < 2 ^ 256 :=
    lt_of_le_of_lt hsr.2 hbig
  rw [← h, toUint256, Int.emod_eq_of_lt hnn hlt, sqrt_eq_nat_sqrt]

theorem anyOpt_append_true {α : Type} (f : α → Option Bool) :
    ∀ l l2 : List α, anyOpt f l = some true → anyOpt f (l ++ l2) = some true
  | [], _, h => by simp [anyOpt] at h
  | a :: as, l2, h => by
    rcases hfa : f a with _ | b
    · simp [anyOpt, hfa] at h
    · cases b
      · simp only [anyOpt, hfa] at h
        simpa [anyOpt, hfa] using anyOpt_append_true f as l2 h
      · simp [anyOpt, hfa]

theorem anyOpt_isSome {α : Type} (f : α → Option Bool) :
    ∀ l : List α, (∀ a ∈ l, (f a).isSome) → (anyOpt f l).isSome
  | [], _ => by simp [anyOpt]
  | a :: as, h => by
    rcases hfa : f a with _ | b
    · have := h a (by simp)
      rw [hfa] at this
      simp at this
    · cases b
      · simpa [anyOpt, hfa] using anyOpt_isSome f as fun x hx => h x (by simp [hx])
      · simp [anyOpt, hfa]

theorem anyOpt_eq_some_true_iff {α : Type} (f : α → Option Bool) :
    ∀ l : List α, (∀ a ∈ l, (f a).isSome) →
      (anyOpt f l = some true ↔ ∃ a ∈ l, f a = some true)
  | [], _ => by simp [anyOpt]
  | a :: as, h => by
    rcases hfa : f a with _ | b
    · have := h a (by simp)
      rw [hfa] at this
      simp at this
    · cases b
      · have ih := anyOpt_eq_some_true_iff f as fun x hx => h x (by simp [hx])
        simp [anyOpt, hfa, ih]
      · simp [anyOpt, hfa]

theorem sampledPoints_length : ∀ p : List Coordinate,
    (sampledPoints p).length = (p.length + 1) / 2
  | [] => rfl
  | [_] => by simp [sampledPoints]
  | _ :: _ :: rest => by
    simp only [sampledPoints, List.length_cons, sampledPoints_length rest]
    omega

/-- The sampled points are exactly the entries at even indices. -/
theorem mem_sampledPoints : ∀ (p : List Coordinate) (c : Coordinate),
    c ∈ sampledPoints p ↔ ∃ i, i < p.length ∧ i % 2 = 0 ∧ p.getD i ⟨0, 0⟩ = c
  | [], c => by simp [sampledPoints]
  | [a], c => by
    constructor
    · intro h
      simp only [sampledPoints, List.mem_singleton] at h
      exact ⟨0, by simp, by simp, by simp [h]⟩
    · rintro ⟨i, hi, he, hg⟩
      simp only [List.length_singleton] at hi
      have hi0 : i = 0 := by omega
      subst hi0
      simp only [List.getD_cons_zero] at hg
      simp [sampledPoints, hg]
  | a :: b :: rest, c => by
    constructor
    · intro h
      rcases List.mem_cons.mp h with h | h
      · exact ⟨0, by simp, by simp, by simp [h]⟩
      · obtain ⟨i, hi, he, hg⟩ := (mem_sampledPoints rest c).mp h
        refine ⟨i + 2, by simp; omega, by omega, ?_⟩
        simpa [List.getD_cons_succ] using hg
    · rintro ⟨i, hi, he, hg⟩
      rcases i with _ | _ | i
      · simp only [List.getD_cons_zero] at hg
        simp [sampledPoints, hg]
      · omega
      · simp only [List.getD_cons_succ] at hg
        simp only [List.length_cons] at hi
        refine List.mem_cons.mpr (Or.inr ?_)
        exact (mem_sampledPoints rest c).mpr ⟨i, by omega, by omega, hg⟩

/-- Case analysis of a non-reverting `submitTrajectory` call: either the
submission was accepted (one trajectory appended, an accepting event
emitted, and the preconditions hold) or it was rejected (storage
untouched, a rejecting event emitted). -/
theorem submitTrajectory_ok {carId st et : Nat} {p : List Coordinate}
    {L : List Trajectory} {res : SubmitResult}
    (h : submitTrajectory carId st et p L = .ok res) :
    (res.accepted = true ∧
      res.ledger = L ++ [⟨carId, st / TIME_SLOT, et / TIME_SLOT, p⟩] ∧
      res.events = [⟨carId, true, st / TIME_SLOT, et / TIME_SLOT⟩] ∧
      st / TIME_SLOT < et / TIME_SLOT ∧ p ≠ []) ∨
    (res.accepted = false ∧ res.ledger = L ∧
      res.events = [⟨carId, false, st / TIME_SLOT, et / TIME_SLOT⟩]) := by
  unfold submitTrajectory at h
  split at h
  · next hp =>
    split at h
    · next hw =>
      split at h
      · exact absurd h (by simp)
      · next hc =>
        simp only [Except.ok.injEq] at h
        subst h
        exact Or.inr ⟨rfl, rfl, rfl⟩
      · next hc =>
        simp only [Except.ok.injEq] at h
        subst h
        refine Or.inl ⟨rfl, rfl, rfl, hw, ?_⟩
        intro he
        subst he
        simp at hp
    · exact absurd h (by simp)
  · exact absurd h (by simp)

/-- Effect of one external call on storage: the ledger is extended by a
(possibly empty) list of well-formed trajectories, one exactly when the
call was an accepted submission. -/
theorem applyRequest_spec (L : List Trajectory) (r : Request) :
    ∃ ext, applyRequest L r = L ++ ext ∧
      (∀ t ∈ ext, t.startSlot < t.endSlot ∧ t.path ≠ []) ∧
      ext.length = (if acceptedOne L r then 1 else 0) := by
  unfold applyRequest acceptedOne
  rcases hs : submitTrajectory r.carId r.startTime r.endTime r.path L with e | res
  · exact ⟨[], by simp, by simp, by simp⟩
  · rcases submitTrajectory_ok hs with ⟨ha, hl, _, hw, hp⟩ | ⟨ha, hl, _⟩
    · refine ⟨[⟨r.carId, r.startTime / TIME_SLOT, r.endTime / TIME_SLOT, r.path⟩],
        hl, ?_, by simp [ha]⟩
      intro t ht
      simp only [List.mem_singleton] at ht
      subst ht
      exact ⟨hw, hp⟩
    · exact ⟨[], by simp [hl], by simp, by simp [ha]⟩

/-- Effect of a sequence of external calls on storage. -/
theorem runRequests_spec : ∀ (rs : List Request) (L : List Trajectory),
    ∃ ext, runRequests L rs = L ++ ext ∧
      (∀ t ∈ ext, t.startSlot < t.endSlot ∧ t.path ≠ []) ∧
      (runRequests L rs).length = L.length + acceptedCount L rs
  | [], L => ⟨[], by simp [runRequests], by simp, by simp [runRequests, acceptedCount]⟩
  | r :: rs, L => by
    obtain ⟨ext1, he1, hw1, hc1⟩ := applyRequest_spec L r
    obtain ⟨ext2, he2, hw2, hlen⟩ := runRequests_spec rs (applyRequest L r)
    refine ⟨ext1 ++ ext2, ?_, ?_, ?_⟩
    · rw [runRequests, he2, he1, List.append_assoc]
    · intro t ht
      rcases List.mem_append.mp ht with h | h
      exacts [hw1 t h, hw2 t h]
    · rw [runRequests, acceptedCount, hlen]
      have hl1 : (applyRequest L r).length = L.length + ext1.length := by
        rw [he1, List.length_append]
      omega

/-- `runRequests` splits along an append of request sequences. -/
theorem runRequests_append : ∀ (pre suf : List Request) (L : List Trajectory),
    runRequests L (pre ++ suf) = runRequests (runRequests L pre) suf
  | [], _, _ => rfl
  | r :: pre, suf, L => by
    rw [List.cons_append, runRequests, runRequests, runRequests_append pre suf]

/-- A submission that overlaps no stored trajectory in time is cleared by
`isCollision` without any spatial check. -/
theorem isCollision_of_no_overlap (s e : Nat) (p : List Coordinate) :
    ∀ L : List Trajectory, (∀ t ∈ L, ¬(s < t.endSlot ∧ t.startSlot < e)) →
      isCollision s e p L = some false
  | [], _ => rfl
  | t :: ts, h => by
    have hnot : ¬(s < t.endSlot ∧ t.startSlot < e) := h t (by simp)
    simp only [isCollision, anyOpt, hnot, if_false]
    exact isCollision_of_no_overlap s e p ts fun x hx => h x (by simp [hx])

/-! ### Claim theorems -/

/-- C1: a submission with a non-empty path, a strictly increasing slot
window `startSlot = startTime / TIME_SLOT < endSlot = endTime / TIME_SLOT`,
and no collision against the stored trajectories returns `accepted = true`
and appends exactly one trajectory carrying the submitted `carId`, slots
and path; the count grows by one, and the new trajectory sits at the index
that equals the count immediately before the append. -/
theorem C1_accepted_append (carId st et : Nat) (p : List Coordinate) (L : List Trajectory)
    (hp : p ≠ []) (hw : st / TIME_SLOT < et / TIME_SLOT)
    (hc : isCollision (st / TIME_SLOT) (et / TIME_SLOT) p L = some false) :
    submitTrajectory carId st et p L =
      .ok ⟨true, L ++ [⟨carId, st / TIME_SLOT, et / TIME_SLOT, p⟩],
           [⟨carId, true, st / TIME_SLOT, et / TIME_SLOT⟩]⟩ ∧
    getTrajectoryCount (L ++ [⟨carId, st / TIME_SLOT, et / TIME_SLOT, p⟩]) =
      getTrajectoryCount L + 1 ∧
    List.getD (L ++ [⟨carId, st / TIME_SLOT, et / TIME_SLOT, p⟩]) (getTrajectoryCount L)
      ⟨0, 0, 0, []⟩ = ⟨carId, st / TIME_SLOT, et / TIME_SLOT, p⟩ := by
  refine ⟨?_, by simp [getTrajectoryCount], ?_⟩
  · unfold submitTrajectory
    rw [if_pos (List.length_pos.mpr hp), if_pos hw, hc]
  · unfold getTrajectoryCount
    rw [List.getD_append_right L _ _ L.length le_rfl]
    simp

/-- Witness for C1 at a concrete accepted submission. -/
theorem C1_accepted_append_witness :
    isCollision (0 / TIME_SLOT) (10 / TIME_SLOT) [⟨0, 0⟩] [] = some false ∧
    submitTrajectory 1 0 10 [⟨0, 0⟩] [] =
      .ok ⟨true, [] ++ [⟨1, 0 / TIME_SLOT, 10 / TIME_SLOT, [⟨0, 0⟩]⟩],
           [⟨1, true, 0 / TIME_SLOT, 10 / TIME_SLOT⟩]⟩ :=
  ⟨by decide, (C1_accepted_append 1 0 10 [⟨0, 0⟩] [] (by decide) (by decide) (by decide)).1⟩

/-- C2: the collision decision gates the spatial check on exactly the
half-open temporal overlap test `newStart < existing.endSlot ∧
existing.startSlot < newEnd`; the stored window `[0, 5)` and the new
window `[5, 10)` never collide whatever the paths; and a submission that
is time-disjoint from every stored trajectory is cleared regardless of
spatial proximity. -/
theorem C2_half_open_overlap (s e ts te c : Nat) (p q : List Coordinate)
    (L : List Trajectory) :
    (isCollision s e p [⟨c, ts, te, q⟩] =
      if s < te ∧ ts < e then pathsCollide p q else some false) ∧
    isCollision 5 10 p [⟨c, 0, 5, q⟩] = some false ∧
    ((∀ t ∈ L, ¬(s < t.endSlot ∧ t.startSlot < e)) → isCollision s e p L = some false) ∧
    (∀ carId, p ≠ [] → s < e → (∀ t ∈ L, ¬(s < t.endSlot ∧ t.startSlot < e)) →
      submitTrajectory carId (s * TIME_SLOT) (e * TIME_SLOT) p L =
        .ok ⟨true, L ++ [⟨carId, s, e, p⟩], [⟨carId, true, s, e⟩]⟩) := by
  refine ⟨?_, ?_, isCollision_of_no_overlap s e p L, ?_⟩
  · by_cases hcond : s < te ∧ ts < e
    · simp only [isCollision, anyOpt, hcond, if_true]
      rcases hpc : pathsCollide p q with _ | b
      · rfl
      · cases b <;> rfl
    · simp only [isCollision, anyOpt, hcond, if_false]
  · exact isCollision_of_no_overlap 5 10 p _ (by simp)
  · intro carId hp hlt hno
    unfold submitTrajectory
    rw [if_pos (List.length_pos.mpr hp)]
    simp only [TIME_SLOT, Nat.mul_one, Nat.div_one]
    rw [if_pos hlt, isCollision_of_no_overlap s e p L hno]

/-- Witness for C2 applied to an empty ledger. -/
theorem C2_half_open_overlap_witness :
    isCollision 5 10 [⟨0, 0⟩] [] = some false ∧
    submitTrajectory 3 (5 * TIME_SLOT) (10 * TIME_SLOT) [⟨0, 0⟩] [] =
      .ok ⟨true, [] ++ [⟨3, 5, 10, [⟨0, 0⟩]⟩], [⟨3, true, 5, 10⟩]⟩ :=
  ⟨(C2_half_open_overlap 5 10 0 5 7 [⟨0, 0⟩] [⟨0, 0⟩] []).2.2.1 (by simp),
   (C2_half_open_overlap 5 10 0 5 7 [⟨0, 0⟩] [⟨0, 0⟩] []).2.2.2 3
     (by decide) (by decide) (by simp)⟩

/-- C4: a submission that collides with some stored trajectory returns
`accepted = false`, leaves the ledger exactly as it was, and emits exactly
the one event `{carId, accepted := false, startSlot, endSlot}`; moreover
the scan short-circuits: trajectories stored after the colliding one
cannot change the verdict. -/
theorem C4_rejected_frame (carId st et : Nat) (p : List Coordinate) (L L2 : List Trajectory)
    (hp : p ≠ []) (hw : st / TIME_SLOT < et / TIME_SLOT)
    (hc : isCollision (st / TIME_SLOT) (et / TIME_SLOT) p L = some true) :
    submitTrajectory carId st et p L =
      .ok ⟨false, L, [⟨carId, false, st / TIME_SLOT, et / TIME_SLOT⟩]⟩ ∧
    isCollision (st / TIME_SLOT) (et / TIME_SLOT) p (L ++ L2) = some true := by
  constructor
  · unfold submitTrajectory
    rw [if_pos (List.length_pos.mpr hp), if_pos hw, hc]
  · exact anyOpt_append_true _ L L2 hc

set_option maxRecDepth 10000 in
/-- Witness for C4 at a concrete rejected submission. -/
theorem C4_rejected_frame_witness :
    isCollision (0 / TIME_SLOT) (10 / TIME_SLOT) [⟨0, 0⟩] [⟨1, 0, 10, [⟨0, 0⟩]⟩] = some true ∧
    submitTrajectory 2 0 10 [⟨0, 0⟩] [⟨1, 0, 10, [⟨0, 0⟩]⟩] =
      .ok ⟨false, [⟨1, 0, 10, [⟨0, 0⟩]⟩], [⟨2, false, 0 / TIME_SLOT, 10 / TIME_SLOT⟩]⟩ :=
  ⟨by decide,
   (C4_rejected_frame 2 0 10 [⟨0, 0⟩] [⟨1, 0, 10, [⟨0, 0⟩]⟩] []
     (by decide) (by decide) (by decide)).1⟩

/-- C5: `submitTrajectory` fails with the empty-path error exactly when the
path is empty, and with the invalid-window error exactly when the path is
non-empty but `endTime / TIME_SLOT ≤ startTime / TIME_SLOT`; both checks
precede any ledger read, so a failing submission produces the same outcome
whatever the ledger contents. -/
theorem C5_validation_errors (carId st et : Nat) (p : List Coordinate) (L : List Trajectory) :
    (submitTrajectory carId st et p L = .error .emptyPath ↔ p = []) ∧
    (submitTrajectory carId st et p L = .error .invalidWindow ↔
      p ≠ [] ∧ et / TIME_SLOT ≤ st / TIME_SLOT) ∧
    ((p = [] ∨ et / TIME_SLOT ≤ st / TIME_SLOT) →
      ∀ L' : List Trajectory, submitTrajectory carId st et p L = submitTrajectory carId st et p L') := by
  by_cases hp : p = []
  · subst hp
    refine ⟨by simp [submitTrajectory], by simp [submitTrajectory], fun _ L' => ?_⟩
    simp [submitTrajectory]
  · by_cases hw : et / TIME_SLOT ≤ st / TIME_SLOT
    · have hsubmit : ∀ L' : List Trajectory,
          submitTrajectory carId st et p L' = .error .invalidWindow := by
        intro L'
        unfold submitTrajectory
        rw [if_pos (List.length_pos.mpr hp), if_neg (by omega)]
      refine ⟨by simp [hsubmit L, hp], by simp [hsubmit L, hp, hw], fun _ L' => ?_⟩
      rw [hsubmit L, hsubmit L']
    · have hok : ∀ res, submitTrajectory carId st et p L = res →
          res ≠ .error .emptyPath ∧ res ≠ .error .invalidWindow := by
        intro res hres
        unfold submitTrajectory at hres
        rw [if_pos (List.length_pos.mpr hp), if_pos (by omega)] at hres
        rcases hcol : isCollision (st / TIME_SLOT) (et / TIME_SLOT) p L with _ | b
        · rw [hcol] at hres
          subst hres
          exact ⟨by simp, by simp⟩
        · rw [hcol] at hres
          cases b <;> (subst hres; exact ⟨by simp, by simp⟩)
      obtain ⟨h1, h2⟩ := hok _ rfl
      refine ⟨by simp [h1, hp], by simp [h2, hw], fun hcontra _ => ?_⟩
      rcases hcontra with h | h
      · exact absurd h hp
      · omega

/-- Witness for C5: an empty path fails with the empty-path error on any ledger. -/
theorem C5_validation_errors_witness :
    submitTrajectory 1 0 10 ([] : List Coordinate) [] = .error .emptyPath ∧
    submitTrajectory 1 0 10 ([] : List Coordinate) [] =
      submitTrajectory 1 0 10 [] [⟨9, 0, 5, [⟨1, 1⟩]⟩] :=
  ⟨(C5_validation_errors 1 0 10 [] []).1.mpr rfl,
   (C5_validation_errors 1 0 10 [] []).2.2 (Or.inl rfl) _⟩

/-- C3: on a temporally overlapping pair, the sampled spatial check fires
iff some pair of points at even indices of the two paths is within
`COLLISION_DISTANCE` (inclusive); a singleton path samples exactly its one
point, every non-empty path samples its index 0, and under the no-overflow
hypothesis the check itself cannot revert. -/
theorem C3_sampled_collision (p q : List Coordinate)
    (h : ∀ a ∈ sampledPoints p, ∀ b ∈ sampledPoints q, (distance a b).isSome) :
    (pathsCollide p q = some true ↔
      ∃ m n, m % 2 = 0 ∧ n % 2 = 0 ∧ m < p.length ∧ n < q.length ∧
        ∃ d, distance (p.getD m ⟨0, 0⟩) (q.getD n ⟨0, 0⟩) = some d ∧
          d ≤ COLLISION_DISTANCE) ∧
    (∀ a : Coordinate, sampledPoints [a] = [a]) ∧
    (∀ (a : Coordinate) (rest : List Coordinate),
      ∃ tail, sampledPoints (a :: rest) = a :: tail) ∧
    (pathsCollide p q).isSome := by
  have hfin : ∀ a ∈ sampledPoints p, ∀ b ∈ sampledPoints q,
      ((distance a b).bind fun d => some (decide (d ≤ COLLISION_DISTANCE))).isSome := by
    intro a ha b hb
    rcases hd : distance a b with _ | d
    · have := h a ha b hb
      rw [hd] at this
      simp at this
    · simp
  have houter : ∀ a ∈ sampledPoints p,
      (anyOpt (fun pn => (distance a pn).bind fun d =>
        some (decide (d ≤ COLLISION_DISTANCE))) (sampledPoints q)).isSome :=
    fun a ha => anyOpt_isSome _ _ fun b hb => hfin a ha b hb
  refine ⟨?_, fun _ => rfl, ?_, anyOpt_isSome _ _ houter⟩
  · rw [pathsCollide, anyOpt_eq_some_true_iff _ _ houter]
    constructor
    · rintro ⟨a, ha, htrue⟩
      rw [anyOpt_eq_some_true_iff _ _ fun b hb => hfin a ha b hb] at htrue
      obtain ⟨b, hb, hbt⟩ := htrue
      obtain ⟨m, hm, hme, hma⟩ := (mem_sampledPoints p a).mp ha
      obtain ⟨n, hn, hne, hnb⟩ := (mem_sampledPoints q b).mp hb
      refine ⟨m, n, hme, hne, hm, hn, ?_⟩
      rcases hd : distance a b with _ | d
      · rw [hd] at hbt
        simp at hbt
      · rw [hd] at hbt
        simp only [Option.some_bind, Option.some.injEq, decide_eq_true_eq] at hbt
        exact ⟨d, by rw [hma, hnb]; exact hd, hbt⟩
    · rintro ⟨m, n, hme, hne, hm, hn, d, hd, hdle⟩
      have hpa : p.getD m ⟨0, 0⟩ ∈ sampledPoints p :=
        (mem_sampledPoints p _).mpr ⟨m, hm, hme, rfl⟩
      have hqb : q.getD n ⟨0, 0⟩ ∈ sampledPoints q :=
        (mem_sampledPoints q _).mpr ⟨n, hn, hne, rfl⟩
      refine ⟨p.getD m ⟨0, 0⟩, hpa, ?_⟩
      rw [anyOpt_eq_some_true_iff _ _ fun b hb => hfin _ hpa b hb]
      refine ⟨q.getD n ⟨0, 0⟩, hqb, ?_⟩
      rw [hd]
      simp [hdle]
  · intro a rest
    rcases rest with _ | ⟨b, r⟩
    · exact ⟨[], rfl⟩
    · exact ⟨sampledPoints r, rfl⟩

set_option maxRecDepth 10000 in
/-- Witness for C3 at a pair of singleton paths exactly at the collision
distance. -/
theorem C3_sampled_collision_witness :
    (∀ a ∈ sampledPoints [⟨0, 0⟩], ∀ b ∈ sampledPoints [⟨0, 7⟩],
      (distance a b).isSome) ∧
    (pathsCollide [⟨0, 0⟩] [⟨0, 7⟩]).isSome :=
  ⟨by decide, (C3_sampled_collision [⟨0, 0⟩] [⟨0, 7⟩] (by decide)).2.2.2⟩

set_option maxRecDepth 10000 in
/-- C6: the contract's Newton loop computes the integer square root
(`⌊√·⌋` of the radicand), so a successful `distance` call returns exactly
`⌊√(dx² + dy²)⌋` in integer-only arithmetic; being a pure function of its
input, the result is identical across runs. -/
theorem C6_distance_newton (x : Nat) (a b : Coordinate) (d : Nat)
    (h : distance a b = some d) :
    sqrt x = Nat.sqrt x ∧
    ⌊Real.sqrt x⌋₊ = sqrt x ∧
    d = Nat.sqrt (((a.latitude - b.latitude) * (a.latitude - b.latitude) +
      (a.longitude - b.longitude) * (a.longitude - b.longitude)).toNat) ∧
    (d : Int) = ⌊Real.sqrt ((((a.latitude - b.latitude) * (a.latitude - b.latitude) +
      (a.longitude - b.longitude) * (a.longitude - b.longitude)).toNat : Nat) : Real)⌋ := by
  have h1 := sqrt_eq_nat_sqrt x
  have h2 := distance_eq_some h
  refine ⟨h1, ?_, h2, ?_⟩
  · rw [Real.nat_floor_real_sqrt_eq_nat_sqrt, h1]
  · rw [Real.floor_real_sqrt_eq_nat_sqrt]
    exact_mod_cast h2

set_option maxRecDepth 10000 in
/-- Witness for C6 at the 3-4-5 triangle. -/
theorem C6_distance_newton_witness :
    distance ⟨0, 0⟩ ⟨3, 4⟩ = some 5 ∧ sqrt 10 = Nat.sqrt 10 :=
  ⟨by decide, (C6_distance_newton 10 ⟨0, 0⟩ ⟨3, 4⟩ 5 (by decide)).1⟩

/-- C7: starting from an empty ledger, after any sequence of submissions
every stored trajectory has `startSlot < endSlot` and a non-empty path;
the count equals the number of accepted submissions; and the ledger after
the full sequence extends the ledger after any prefix of it, so the count
is non-decreasing and an already-stored entry never changes. -/
theorem C7_append_only (reqs : List Request) :
    WellFormed (runRequests [] reqs) ∧
    (runRequests [] reqs).length = acceptedCount [] reqs ∧
    (∀ pre suf, reqs = pre ++ suf →
      ∃ ext, runRequests [] reqs = runRequests [] pre ++ ext) ∧
    (∀ pre suf i, reqs = pre ++ suf → i < (runRequests [] pre).length →
      List.getD (runRequests [] reqs) i ⟨0, 0, 0, []⟩ =
        List.getD (runRequests [] pre) i ⟨0, 0, 0, []⟩) := by
  obtain ⟨ext, hext, hwf, hlen⟩ := runRequests_spec reqs []
  refine ⟨?_, by simpa using hlen, ?_, ?_⟩
  · unfold WellFormed
    intro t ht
    rw [hext] at ht
    simp only [List.nil_append] at ht
    exact hwf t ht
  · intro pre suf hsplit
    subst hsplit
    rw [runRequests_append]
    obtain ⟨ext2, hext2, _, _⟩ := runRequests_spec suf (runRequests [] pre)
    exact ⟨ext2, hext2⟩
  · intro pre suf i hsplit hi
    subst hsplit
    rw [runRequests_append]
    obtain ⟨ext2, hext2, _, _⟩ := runRequests_spec suf (runRequests [] pre)
    rw [hext2, List.getD_append _ _ _ _ hi]

/-- Witness for C7's prefix-stability at a one-request sequence. -/
theorem C7_append_only_witness :
    ∃ ext, runRequests [] [⟨1, 0, 10, [⟨0, 0⟩]⟩] =
      runRequests [] [⟨1, 0, 10, [⟨0, 0⟩]⟩] ++ ext :=
  (C7_append_only [⟨1, 0, 10, [⟨0, 0⟩]⟩]).2.2.1 [⟨1, 0, 10, [⟨0, 0⟩]⟩] [] rfl

set_option maxRecDepth 10000 in
/-- A value whose absolute value is bounded by something below
`INT256_MAX` passes the checked-arithmetic range test. -/
theorem checkInt256_of_abs_le {x B : Int} (h : |x| ≤ B) (hhi : B ≤ INT256_MAX) :
    checkInt256 x = some x := by
  obtain ⟨hlo, hhi2⟩ := abs_le.mp h
  have hneg : (INT256_MIN : Int) ≤ -INT256_MAX := by decide
  have hmin : INT256_MIN ≤ x := by linarith
  have hmax : x ≤ INT256_MAX := by linarith
  unfold checkInt256
  rw [if_pos ⟨hmin, hmax⟩]

set_option maxRecDepth 10000 in
/-- C8: for coordinates in the scaled decimal-degree range
(|value| ≤ 180·10⁶), every checked operation inside `distance` stays in
the `int256` range — the overflow branch is unreachable — and the cast of
`dx² + dy²` to `uint256` is exact. -/
theorem C8_no_overflow (a b : Coordinate)
    (h1 : |a.latitude| ≤ 180000000) (h2 : |a.longitude| ≤ 180000000)
    (h3 : |b.latitude| ≤ 180000000) (h4 : |b.longitude| ≤ 180000000) :
    (distance a b).isSome ∧
    distance a b = some (sqrt (((a.latitude - b.latitude) * (a.latitude - b.latitude) +
      (a.longitude - b.longitude) * (a.longitude - b.longitude)).toNat)) ∧
    toUint256 ((a.latitude - b.latitude) * (a.latitude - b.latitude) +
      (a.longitude - b.longitude) * (a.longitude - b.longitude)) =
    ((a.latitude - b.latitude) * (a.latitude - b.latitude) +
      (a.longitude - b.longitude) * (a.longitude - b.longitude)).toNat := by
  have hnnx : (0 : Int) ≤ (a.latitude - b.latitude) * (a.latitude - b.latitude) :=
    mul_self_nonneg _
  have hnny : (0 : Int) ≤ (a.longitude - b.longitude) * (a.longitude - b.longitude) :=
    mul_self_nonneg _
  have habs1 : |a.latitude - b.latitude| ≤ 360000000 := by
    have := abs_sub a.latitude b.latitude
    linarith
  have habs2 : |a.longitude - b.longitude| ≤ 360000000 := by
    have := abs_sub a.longitude b.longitude
    linarith
  have hsq1 : (a.latitude - b.latitude) * (a.latitude - b.latitude) ≤
      360000000 * 360000000 := by
    calc (a.latitude - b.latitude) * (a.latitude - b.latitude)
        = |a.latitude - b.latitude| * |a.latitude - b.latitude| :=
          (abs_mul_abs_self _).symm
      _ ≤ 360000000 * 360000000 :=
          mul_le_mul habs1 habs1 (abs_nonneg _) (by norm_num)
  have hsq2 : (a.longitude - b.longitude) * (a.longitude - b.longitude) ≤
      360000000 * 360000000 := by
    calc (a.longitude - b.longitude) * (a.longitude - b.longitude)
        = |a.longitude - b.longitude| * |a.longitude - b.longitude| :=
          (abs_mul_abs_self _).symm
      _ ≤ 360000000 * 360000000 :=
          mul_le_mul habs2 habs2 (abs_nonneg _) (by norm_num)
  have c1 := checkInt256_of_abs_le habs1 (by decide)
  have c2 := checkInt256_of_abs_le habs2 (by decide)
  have c3 := checkInt256_of_abs_le (x := (a.latitude - b.latitude) * (a.latitude - b.latitude))
    (B := 360000000 * 360000000) (by rwa [abs_of_nonneg hnnx]) (by decide)
  have c4 := checkInt256_of_abs_le (x := (a.longitude - b.longitude) * (a.longitude - b.longitude))
    (B := 360000000 * 360000000) (by rwa [abs_of_nonneg hnny]) (by decide)
  have hsum : (a.latitude - b.latitude) * (a.latitude - b.latitude) +
      (a.longitude - b.longitude) * (a.longitude - b.longitude) ≤
      2 * (360000000 * 360000000) := by linarith
  have c5 := checkInt256_of_abs_le
    (x := (a.latitude - b.latitude) * (a.latitude - b.latitude) +
      (a.longitude - b.longitude) * (a.longitude - b.longitude))
    (B := 2 * (360000000 * 360000000))
    (by rw [abs_of_nonneg (add_nonneg hnnx hnny)]; exact hsum) (by decide)
  have htu : toUint256 ((a.latitude - b.latitude) * (a.latitude - b.latitude) +
      (a.longitude - b.longitude) * (a.longitude - b.longitude)) =
      ((a.latitude - b.latitude) * (a.latitude - b.latitude) +
        (a.longitude - b.longitude) * (a.longitude - b.longitude)).toNat := by
    unfold toUint256
    rw [Int.emod_eq_of_lt (add_nonneg hnnx hnny) (by
      have hfin : (2 * (360000000 * 360000000) : Int) < 2 ^ 256 := by decide
      linarith)]
  have hdist : distance a b =
      some (sqrt (((a.latitude - b.latitude) * (a.latitude - b.latitude) +
        (a.longitude - b.longitude) * (a.longitude - b.longitude)).toNat)) := by
    unfold distance
    rw [c1, Option.some_bind, c2, Option.some_bind, c3, Option.some_bind,
      c4, Option.some_bind, c5, Option.some_bind, htu]
  exact ⟨by rw [hdist]; rfl, hdist, htu⟩

set_option maxRecDepth 10000 in
/-- Witness for C8 at concrete in-range coordinates. -/
theorem C8_no_overflow_witness :
    |(Coordinate.mk 0 0).latitude| ≤ 180000000 ∧
    (distance ⟨0, 0⟩ ⟨3, 4⟩).isSome :=
  ⟨by decide,
   (C8_no_overflow ⟨0, 0⟩ ⟨3, 4⟩ (by decide) (by decide) (by decide) (by decide)).1⟩

/-- C9: `getTrajectoryMeta` fails with its out-of-range error exactly when
the index is at least the count, and otherwise returns the stored
metadata; `getTrajectoryCoordinate` fails with the invalid-trajectory
error exactly when the trajectory index is out of range, with the
invalid-coordinate error exactly when the trajectory is in range but the
coordinate index reaches past its path, and otherwise returns the stored
coordinate.  All three are pure functions of the ledger: no read mutates
state. -/
theorem C9_view_lookups (L : List Trajectory) (i j : Nat) :
    (getTrajectoryMeta L i = .error .indexOutOfBounds ↔ L.length ≤ i) ∧
    (∀ h : i < L.length,
      getTrajectoryMeta L i =
        .ok ((L.get ⟨i, h⟩).carId, (L.get ⟨i, h⟩).startSlot, (L.get ⟨i, h⟩).endSlot,
          (L.get ⟨i, h⟩).path.length)) ∧
    (getTrajectoryCoordinate L i j = .error .invalidTrajectory ↔ L.length ≤ i) ∧
    (∀ h : i < L.length,
      (getTrajectoryCoordinate L i j = .error .invalidCoordinate ↔
        (L.get ⟨i, h⟩).path.length ≤ j)) ∧
    (∀ (h : i < L.length) (h2 : j < (L.get ⟨i, h⟩).path.length),
      getTrajectoryCoordinate L i j =
        .ok (((L.get ⟨i, h⟩).path.get ⟨j, h2⟩).latitude,
          ((L.get ⟨i, h⟩).path.get ⟨j, h2⟩).longitude)) := by
  refine ⟨?_, ?_, ?_, ?_, ?_⟩
  · unfold getTrajectoryMeta
    split
    · next h =>
      simp only [reduceCtorEq, false_iff]
      omega
    · next h =>
      simp only [true_iff]
      omega
  · intro h
    unfold getTrajectoryMeta
    rw [dif_pos h]
  · unfold getTrajectoryCoordinate
    split
    · next h =>
      split
      · next h2 =>
        simp only [reduceCtorEq, false_iff]
        omega
      · next h2 =>
        simp only [Except.error.injEq, reduceCtorEq, false_iff]
        omega
    · next h =>
      simp only [true_iff]
      omega
  · intro h
    unfold getTrajectoryCoordinate
    rw [dif_pos h]
    split
    · next h2 =>
      simp only [reduceCtorEq, false_iff]
      omega
    · next h2 =>
      simp only [true_iff]
      omega
  · intro h h2
    unfold getTrajectoryCoordinate
    rw [dif_pos h, dif_pos h2]

/-- Witness for C9 at a singleton ledger. -/
theorem C9_view_lookups_witness :
    getTrajectoryCoordinate [⟨1, 0, 10, [⟨2, 3⟩]⟩] 0 0 = .ok (2, 3) ∧
    getTrajectoryMeta [⟨1, 0, 10, [⟨2, 3⟩]⟩] 0 = .ok (1, 0, 10, 1) :=
  ⟨(C9_view_lookups [⟨1, 0, 10, [⟨2, 3⟩]⟩] 0 0).2.2.2.2 (by decide) (by decide),
   (C9_view_lookups [⟨1, 0, 10, [⟨2, 3⟩]⟩] 0 0).2.1 (by decide)⟩

end TrajectoryValidation

namespace ContractUtils

/-- `scaleCoordinate(value) = BigInt(Math.round(value * 1e6))` from
src/src/utils/contract.ts, with JavaScript numbers modelled as exact
rationals; `Math.round x` rounds half toward positive infinity, i.e.
`⌊x + 1/2⌋`. -/
def scaleCoordinate (v : ℚ) : Int := ⌊v * 1000000 + 1 / 2⌋

/-- `unscaleCoordinate(value) = Number(value) / 1e6`. -/
def unscaleCoordinate (x : Int) : ℚ := (x : ℚ) / 1000000

/-- C10: scaling a coordinate to the contract's fixed-point format and
back moves it by at most half of the 1e-6-degree resolution, i.e.
`|unscale (scale v) - v| ≤ 0.5 / 1e6`. -/
theorem C10_round_trip_bound (v : ℚ) :
    |unscaleCoordinate (scaleCoordinate v) - v| ≤ 1 / 2000000 := by
  unfold unscaleCoordinate scaleCoordinate
  have h1 : (⌊v * 1000000 + 1 / 2⌋ : ℚ) ≤ v * 1000000 + 1 / 2 :=
    Int.floor_le _
  have h2 : v * 1000000 + 1 / 2 < ⌊v * 1000000 + 1 / 2⌋ + 1 :=
    Int.lt_floor_add_one _
  rw [abs_le]
  constructor
  · linarith
  · linarith

end ContractUtils
